import Mathlib

/-!
Verification of the natural-language specification of the
codecrafters-http-server-rust repository against a shallow embedding of its
source code (src/src/request.rs, src/src/handler.rs).

Bytes are modelled as `Nat` (values < 256 in every reachable case), byte
buffers as `List Nat`.  External crates used by the source are modelled
explicitly where their behaviour decides a claim:
  * `http::Method::from_bytes` / `HeaderName` / `HeaderValue` validation
    tables are transcribed;
  * `flate2` gzip compression is an opaque parameter (claims only use how
    the dispatcher applies it, never the algorithm itself);
  * `http::Uri::try_from` is a parameter of the start-line parser; concrete
    theorems instantiate it with a model that, like the real parser, accepts
    the URIs appearing in those theorems.
-/

/-- UTF-8 encoding of one character, as `Nat` bytes. -/
def charUtf8 (c : Char) : List Nat :=
  let n := c.toNat
  if n < 128 then [n]
  else if n < 2048 then [192 + n / 64, 128 + n % 64]
  else if n < 65536 then [224 + n / 4096, 128 + (n / 64) % 64, 128 + n % 64]
  else [240 + n / 262144, 128 + (n / 4096) % 64, 128 + (n / 64) % 64, 128 + n % 64]

/-- UTF-8 bytes of a string, as `Nat`s (models Rust `str::as_bytes`). -/
def strBytes (s : String) : List Nat :=
  (s.toList.map charUtf8).flatten

/-- ASCII lower-casing of one byte (models `u8::to_ascii_lowercase`). -/
def asciiLowerN (b : Nat) : Nat :=
  if 65 ≤ b ∧ b ≤ 90 then b + 32 else b

/-- `nom::character::is_alphabetic`: ASCII `A-Z` or `a-z`. -/
def isAlphaN (b : Nat) : Bool :=
  (65 ≤ b && b ≤ 90) || (97 ≤ b && b ≤ 122)

/-- Byte accepted by `nom::character::complete::space1`: space or tab. -/
def isSpaceTabN (b : Nat) : Bool :=
  b == 32 || b == 9

/-- Byte accepted by the version fragment of the start line:
ASCII digit or dot. -/
def isDigitDotN (b : Nat) : Bool :=
  (48 ≤ b && b ≤ 57) || b == 46

/-- Byte of a valid `http::Method` token (table `METHOD_CHARS` of the
`http` crate): `!#$%&*+-.^_|~`, the apostrophe (39), the backtick (96),
digits and letters. -/
def isMethodTokenN (b : Nat) : Bool :=
  b == 33 || b == 35 || b == 36 || b == 37 || b == 38 || b == 39 ||
  b == 42 || b == 43 || b == 45 || b == 46 || b == 94 || b == 95 ||
  b == 96 || b == 124 || b == 126 ||
  (48 ≤ b && b ≤ 57) || isAlphaN b

/-- Byte of a valid `http::HeaderName` (table `HDR_CHARS`): lowercase or
uppercase letters, digits, `!#$%&*+-.^_|~`, apostrophe (39), backtick (96). -/
def isHdrNameN (b : Nat) : Bool :=
  isMethodTokenN b

/-- Byte of a valid `http::HeaderValue`: `b >= 32 && b != 127 || b == 9`
(restricted to one octet). -/
def isHdrValueN (b : Nat) : Bool :=
  (32 ≤ b && b ≤ 255 && b != 127) || b == 9

/-- Byte accepted by `http::HeaderValue::to_str`: visible ASCII or tab. -/
def isVisibleAsciiN (b : Nat) : Bool :=
  (32 ≤ b && b ≤ 126) || b == 9

/-- `http::Version` (the variants of the `http` crate that the serializer
in handler.rs matches on). -/
inductive HttpVersion where
  | http09 | http10 | http11 | http2 | http3
deriving DecidableEq

namespace Parsing

/-! Shallow embedding of `src/src/request.rs`. -/

/-- `http::Method::from_bytes`: succeeds on any non-empty sequence of valid
method-token bytes (unrecognized tokens become extension methods — there is
no rejection of unknown methods).  The resulting `Method` is represented by
its exact bytes, which is how `http::Method` equality behaves for both
standard and extension methods. -/
def methodFromBytes (b : List Nat) : Option (List Nat) :=
  if b ≠ [] ∧ b.all isMethodTokenN then some b else none

/-- `http::HeaderName::try_from(&[u8])`: validates the bytes and stores the
name lower-cased. -/
def headerNameFromBytes (b : List Nat) : Option (List Nat) :=
  if b ≠ [] ∧ b.all isHdrNameN then some (b.map asciiLowerN) else none

/-- `http::HeaderValue::try_from(&[u8])`: validates the bytes. -/
def headerValueFromBytes (b : List Nat) : Option (List Nat) :=
  if b.all isHdrValueN then some b else none

/-- Result of `Parts::parse_start_line` (a nom parser).  `panics` models the
`unimplemented!()` reached for a well-formed version token other than
`1.1`. -/
inductive StartLineResult where
  | ok (rest : List Nat) (method : List Nat) (uri : List Nat) (version : HttpVersion)
  | fail
  | panics
deriving DecidableEq

/-- `Parts::parse_start_line` (request.rs:117-139), parameterized by a model
`uriF` of the external `http::Uri::try_from` (returning `none` on invalid
URI bytes).  Transcribed from the nom pipeline:
`take_while1(is_alphabetic)` · `space1` · `take_while1(!= b' ')` · `space1`
· `tag("HTTP/")` · `take_while1(digit || '.')` · `crlf`, then `map_res`
running `Method::from_bytes`, `Uri::try_from` and the version match whose
default arm is `unimplemented!()`. -/
def parse_start_line (uriF : List Nat → Option (List Nat)) (input : List Nat) :
    StartLineResult :=
  let m := input.takeWhile isAlphaN
  if m = [] then .fail else
  let r1 := input.dropWhile isAlphaN
  let sp1 := r1.takeWhile isSpaceTabN
  if sp1 = [] then .fail else
  let r2 := r1.dropWhile isSpaceTabN
  let u := r2.takeWhile (fun b => b ≠ 32)
  if u = [] then .fail else
  let r3 := r2.dropWhile (fun b => b ≠ 32)
  let sp2 := r3.takeWhile isSpaceTabN
  if sp2 = [] then .fail else
  let r4 := r3.dropWhile isSpaceTabN
  match r4 with
  | 72 :: 84 :: 84 :: 80 :: 47 :: r5 =>  -- tag "HTTP/"
    let v := r5.takeWhile isDigitDotN
    if v = [] then .fail else
    let r6 := r5.dropWhile isDigitDotN
    match r6 with
    | 13 :: 10 :: rest =>  -- crlf
      -- the map_res closure, in source order
      match methodFromBytes m with
      | none => .fail
      | some method =>
        match uriF u with
        | none => .fail
        | some uri =>
          if v = strBytes "1.1" then .ok rest method uri .http11
          else .panics  -- `_ => unimplemented!()`
    | _ => .fail
  | _ => .fail

/-- One iteration of the header-line parser (request.rs:141-160):
`take_while1(!= b':')` · `tag(": ")` · `take_while1(!= b'\r')` · `crlf`,
then `map_res` validating `HeaderName` / `HeaderValue`.
Returns `(rest, (name, value))` on success. -/
def parseHeaderLine (input : List Nat) :
    Option (List Nat × (List Nat × List Nat)) :=
  let k := input.takeWhile (fun b => b ≠ 58)
  if k = [] then none else
  match input.dropWhile (fun b => b ≠ 58) with
  | 58 :: 32 :: r2 =>  -- tag ": "
    let v := r2.takeWhile (fun b => b ≠ 13)
    if v = [] then none else
    match r2.dropWhile (fun b => b ≠ 13) with
    | 13 :: 10 :: r4 =>  -- crlf
      match headerNameFromBytes k, headerValueFromBytes v with
      | some name, some value => some (r4, (name, value))
      | _, _ => none
    | _ => none
  | _ => none

/-- `http::HeaderMap::insert` on the association-list representation:
replaces the value of an existing name, otherwise appends. -/
def insertHeader (k v : List Nat) : List (List Nat × List Nat) → List (List Nat × List Nat)
  | [] => [(k, v)]
  | (k', v') :: t => if k' = k then (k, v) :: t else (k', v') :: insertHeader k v t

/-- `fold_many0` over `parseHeaderLine`, folding with `insertHeader`
(request.rs:154-157).  Each successful iteration consumes at least one
byte, so `input.length` bounds the iteration count (`fuel`). -/
def foldHeaders (fuel : Nat) (input : List Nat) (acc : List (List Nat × List Nat)) :
    List Nat × List (List Nat × List Nat) :=
  match fuel with
  | 0 => (input, acc)
  | fuel + 1 =>
    match parseHeaderLine input with
    | none => (input, acc)
    | some (rest, (k, v)) => foldHeaders fuel rest (insertHeader k v acc)

/-- The parsed header block of a request (`struct Parts`, request.rs:87-92).
Header names are stored lower-cased (an `http::HeaderMap` invariant). -/
structure Parts where
  method : List Nat
  uri : List Nat
  version : HttpVersion
  headers : List (List Nat × List Nat)
deriving DecidableEq

/-- Result of `Parts::parse` (an `anyhow::Result`, plus the panic case
propagated from the start-line version match). -/
inductive PartsResult where
  | ok (parts : Parts)
  | err (msg : String)
  | panics
deriving DecidableEq

/-- `Parts::parse` (request.rs:95-114): `pair(parse_start_line,
parse_header_lines)`, mapping any nom error to an anyhow error, then
`ensure!(rest.is_empty())`.  `parse_header_lines` is `fold_many0` of header
lines terminated by a final `crlf`. -/
def Parts.parse (uriF : List Nat → Option (List Nat)) (bytes : List Nat) :
    PartsResult :=
  match parse_start_line uriF bytes with
  | .panics => .panics
  | .fail => .err "Failed to parse request"
  | .ok rest method uri version =>
    let (rest2, headers) := foldHeaders rest.length rest []
    match rest2 with
    | 13 :: 10 :: rest3 =>  -- terminated(headers, crlf)
      if rest3 = [] then .ok ⟨method, uri, version, headers⟩
      else .err "rest.is_empty()"
    | _ => .err "Failed to parse request"

/-- Splits a connection stream at the first occurrence of the header-block
terminator `\r\n\r\n`, returning the bytes up to and including the
terminator and the remainder.  This models the `read_until(b'\n')` loop of
`RequestParser::parse` (request.rs:30-37): the accumulated buffer grows one
line at a time and the loop breaks the first time it ends with
`\r\n\r\n`, i.e. exactly at the first occurrence of the terminator (which
always ends at a line boundary); if the stream ends first, the loop fails
with `Incomplete request`. -/
def findSplit : List Nat → Option (List Nat × List Nat)
  | 13 :: 10 :: 13 :: 10 :: rest => some ([13, 10, 13, 10], rest)
  | b :: rest =>
    match findSplit rest with
    | some (buf, r) => some (b :: buf, r)
    | none => none
  | [] => none

/-- `str::parse::<u64>` on header-value bytes: an optional leading `+`,
then one or more ASCII digits, with the value bounded by `u64::MAX`. -/
def parseU64 (b : List Nat) : Option Nat :=
  let digits := match b with
    | 43 :: ds => ds
    | ds => ds
  if digits ≠ [] ∧ digits.all (fun d => 48 ≤ d && d ≤ 57) then
    let v := digits.foldl (fun acc d => acc * 10 + (d - 48)) 0
    if v < 2 ^ 64 then some v else none
  else none

/-- `HeaderValue::to_str().ok()` followed by `.parse::<u64>().ok()`
(request.rs:44-46): `to_str` succeeds only on visible-ASCII bytes. -/
def headerValueToU64 (v : List Nat) : Option Nat :=
  if v.all isVisibleAsciiN then parseU64 v else none

/-- A parsed request (`struct Request<T>`, request.rs:58-62).  The body is
the byte sequence that the `Content-Length`-bounded reader
(`reader.take(len)`, request.rs:49) yields. -/
structure Request where
  parts : Parts
  body : Option (List Nat)
deriving DecidableEq

/-- Result of `RequestParser::parse`. -/
inductive ParseResult where
  | ok (req : Request)
  | err (msg : String)
  | panics
deriving DecidableEq

/-- The `content-length` header name as bytes. -/
def clName : List Nat := strBytes "content-length"

/-- `RequestParser::parse` (request.rs:23-55) on a whole connection
stream: read lines until the blank-line terminator (else fail with
`Incomplete request`), parse the accumulated header block, then bound the
body with the parsed `Content-Length`: absent, `0`, or unparseable values
leave the body `None`; a value `L > 0` bounds the body reader to the first
`L` bytes of the remaining stream (`reader.take(len)`). -/
def RequestParser.parse (uriF : List Nat → Option (List Nat)) (stream : List Nat) :
    ParseResult :=
  match findSplit stream with
  | none => .err "Incomplete request"
  | some (buf, rest) =>
    match Parts.parse uriF buf with
    | .panics => .panics
    | .err e => .err e
    | .ok parts =>
      let contentLength := (parts.headers.lookup clName).bind headerValueToU64
      let body := match contentLength.filter (fun L => L ≠ 0) with
        | some L => some (rest.take L)
        | none => none
      .ok ⟨parts, body⟩

/-- A model of `http::Uri::try_from` adequate for the concrete inputs of
the theorems below: it accepts any non-empty byte sequence (the real
parser accepts every URI appearing in those inputs, e.g. `/`, `/echo/abc`). -/
def uriModel (u : List Nat) : Option (List Nat) :=
  if u = [] then none else some u

example : strBytes "HTTP/" = [72, 84, 84, 80, 47] := by decide
example :
    parse_start_line uriModel (strBytes "GET / HTTP/1.1\r\n") =
      .ok [] (strBytes "GET") [47] .http11 := by decide
example :
    parse_start_line uriModel (strBytes "GET / HTTP/2.0\r\n") = .panics := by
  decide
example :
    RequestParser.parse uriModel
        (strBytes "GET / HTTP/1.1\r\nContent-Length: 3\r\n\r\nabcdef") =
      .ok ⟨⟨strBytes "GET", [47], .http11, [(clName, [51])]⟩,
        some (strBytes "abc")⟩ := by decide
example :
    RequestParser.parse uriModel
        (strBytes "GET / HTTP/1.1\r\nContent-Length: abc\r\n\r\nrest") =
      .ok ⟨⟨strBytes "GET", [47], .http11, [(clName, strBytes "abc")]⟩,
        none⟩ := by decide

end Parsing

namespace Handler

/-! Shallow embedding of `src/src/handler.rs`. -/

/-- Splitting a character list at every occurrence of one character
(Rust `str::split(char)`): always yields at least one piece, and empty
pieces between consecutive separators. -/
def splitChar (c : Char) : List Char → List (List Char)
  | [] => [[]]
  | b :: t =>
    if b = c then [] :: splitChar c t
    else
      match splitChar c t with
      | h :: r => (b :: h) :: r
      | [] => [[b]]

/-- `request.uri().path().split('/').skip(1).filter(|x| !x.is_empty())`
(handler.rs:29-34), materialized as a list of segments. -/
def pathParts (p : String) : List String :=
  (((splitChar '/' p.toList).map fun l => String.mk l).drop 1).filter
    fun s => s ≠ ""

/-- `bstr::split_str(b", ")`: split at every occurrence of the two-byte
separator `", "` (comma followed by space), leftmost first. -/
def splitCommaSpace : List Char → List (List Char)
  | ',' :: ' ' :: t => [] :: splitCommaSpace t
  | b :: t =>
    match splitCommaSpace t with
    | h :: r => (b :: h) :: r
    | [] => [[b]]
  | [] => [[]]

/-- ASCII lower-casing of one character. -/
def asciiLowerC (c : Char) : Char :=
  if 'A' ≤ c ∧ c ≤ 'Z' then Char.ofNat (c.toNat + 32) else c

/-- `eq_ignore_ascii_case` with the literal `b"gzip"`. -/
def eqIgnoreCaseGzip (tok : List Char) : Bool :=
  tok.map asciiLowerC = ['g', 'z', 'i', 'p']

/-- The request type consumed by `handle_request`
(`Request<BoxBody>`): header names are stored lower-cased (an
`http::HeaderMap` invariant), the body is the chunk sequence the bounded
body reader yields. -/
structure Request where
  method : String
  path : String
  headers : List (String × String)
  body : Option (List (List Nat))
deriving DecidableEq

/-- `HeaderMap::get_all(name)`: every value stored under `name`. -/
def getAllHeaders (hs : List (String × String)) (name : String) : List String :=
  (hs.filter fun kv => kv.1 = name).map fun kv => kv.2

/-- `HeaderMap::get(name)`: the first value stored under `name`. -/
def getHeader (hs : List (String × String)) (name : String) : Option String :=
  (hs.find? fun kv => kv.1 = name).map fun kv => kv.2

/-- The gzip content-negotiation test (handler.rs:46-50):
`accepts.into_iter().flat_map(|hv| hv.as_bytes().split_str(b", "))
 .any(|hv| hv.eq_ignore_ascii_case(b"gzip"))`. -/
def acceptsGzip (hs : List (String × String)) : Bool :=
  (getAllHeaders hs "accept-encoding").any fun v =>
    (splitCommaSpace v.toList).any eqIgnoreCaseGzip

/-- `enum BodyType` (handler.rs:173-177).  A `Chunked` body is the
sequence of data chunks its stream produces. -/
inductive BodyType where
  | full (data : List Nat)
  | chunked (chunks : List (List Nat))
  | empty
deriving DecidableEq

/-- `http::Response<BodyType>`: status code, version and headers as the
builder assembled them (insertion order), plus the body variant.
`Response::builder()` defaults: status 200, version HTTP/1.1. -/
structure Response where
  status : Nat
  version : HttpVersion
  headers : List (String × String)
  body : BodyType
deriving DecidableEq

/-- `not_found()` (handler.rs:194-199). -/
def not_found : Response :=
  ⟨404, .http11, [], .full (strBytes "Not Found")⟩

/-- The filesystem the handler touches through tokio: a set of existing
directories and a map from path to file contents. -/
structure FS where
  dirs : List String
  files : List (String × List Nat)
deriving DecidableEq

/-- `tokio::fs::File::open` + full read: the contents of an existing
file. -/
def fsRead (fs : FS) (p : String) : Option (List Nat) :=
  fs.files.lookup p

/-- `tokio::fs::create_dir_all`. -/
def createDirAll (d : String) (fs : FS) : FS :=
  ⟨d :: fs.dirs, fs.files⟩

/-- `OpenOptions::new().write(true).truncate(true).create(true)` followed
by writing `data`: the file now holds exactly `data`. -/
def writeFile (p : String) (data : List Nat) (fs : FS) : FS :=
  ⟨fs.dirs, (p, data) :: fs.files⟩

/-- `PathBuf::join` for a directory and a bare file name (a path segment
never contains `/` and is never absolute). -/
def pathJoin (dir name : String) : String :=
  dir ++ "/" ++ name

/-- `tokio_util::io::ReaderStream` with its default 4096-byte capacity:
the chunk sequence obtained by reading a file of known contents. -/
def chunksOfAux (fuel : Nat) (l : List Nat) : List (List Nat) :=
  match fuel with
  | 0 => []
  | fuel + 1 =>
    match l with
    | [] => []
    | _ => l.take 4096 :: chunksOfAux fuel (l.drop 4096)

/-- The chunking of a byte buffer into reads of at most 4096 bytes. -/
def chunksOf (l : List Nat) : List (List Nat) :=
  chunksOfAux l.length l

/-- Outcome of the route-dispatch block of `handle_request`:
a response (and the filesystem as possibly modified), an `anyhow` error,
or a panic (`unimplemented!()`). -/
inductive DispatchOutcome where
  | ok (fs : FS) (response : Response)
  | err (msg : String)
  | panics
deriving DecidableEq

/-- The route-dispatch block of `handle_request` (handler.rs:25-110): the
`match path_parts.next().unwrap_or("")` that produces the response sent by
`send_response`.  `gz` models `encode_sync` (handler.rs:201-207), i.e. the
external flate2 gzip encoder; `dirCfg` models `ARGUMENTS.directory`. -/
def handle_request (gz : List Nat → List Nat) (dirCfg : Option String)
    (fs : FS) (req : Request) : DispatchOutcome :=
  match pathParts req.path with
  | [] => .ok fs ⟨200, .http11, [], .empty⟩
  | "echo" :: rest =>
    match rest with
    | [] => .err "Missing arg"
    | arg :: _ =>
      if acceptsGzip req.headers then
        let content := gz (strBytes arg)
        .ok fs ⟨200, .http11,
          [("content-type", "text/plain"), ("content-encoding", "gzip"),
            ("content-length", toString content.length)],
          .full content⟩
      else
        let content := strBytes arg
        .ok fs ⟨200, .http11,
          [("content-type", "text/plain"),
            ("content-length", toString content.length)],
          .full content⟩
  | "user-agent" :: _ =>
    match getHeader req.headers "user-agent" with
    | some v =>
      .ok fs ⟨200, .http11,
        [("content-type", "text/plain"),
          ("content-length", toString (strBytes v).length)],
        .full (strBytes v)⟩
    | none => .ok fs not_found
  | "files" :: rest =>
    match rest with
    | [] => .err "Missing file name"
    | fileName :: _ =>
      match dirCfg with
      | none => .err "/files/ in path but no directory in arguments"
      | some dir =>
        let filePath := pathJoin dir fileName
        if req.method = "GET" then
          match fsRead fs filePath with
          | none => .ok fs not_found
          | some contents =>
            .ok fs ⟨200, .http11,
              [("content-type", "application/octet-stream"),
                ("content-length", toString contents.length)],
              .chunked (chunksOf contents)⟩
        else if req.method = "POST" then
          match req.body with
          | none => .err "No body"
          | some chunks =>
            .ok (writeFile filePath chunks.flatten (createDirAll dir fs))
              ⟨201, .http11, [], .empty⟩
        else .panics  -- `_ => unimplemented!()`
  | _ => .ok fs not_found

/-- One effect on the response writer: a `write_all`/`write_u8` of some
bytes, or a `flush`. -/
inductive WEvent where
  | write (bytes : List Nat)
  | flush
deriving DecidableEq

/-- The canonical dotted version literal written by `send_response`
(handler.rs:122-129). -/
def versionStr : HttpVersion → String
  | .http09 => "0.9"
  | .http10 => "1.0"
  | .http11 => "1.1"
  | .http2 => "2.0"
  | .http3 => "3.0"

/-- `http::StatusCode::canonical_reason` for the three-digit codes in the
crate's table; `none` for codes without a canonical reason phrase. -/
def canonicalReason : Nat → Option String
  | 100 => some "Continue"
  | 101 => some "Switching Protocols"
  | 102 => some "Processing"
  | 200 => some "OK"
  | 201 => some "Created"
  | 202 => some "Accepted"
  | 203 => some "Non Authoritative Information"
  | 204 => some "No Content"
  | 205 => some "Reset Content"
  | 206 => some "Partial Content"
  | 207 => some "Multi-Status"
  | 208 => some "Already Reported"
  | 226 => some "IM Used"
  | 300 => some "Multiple Choices"
  | 301 => some "Moved Permanently"
  | 302 => some "Found"
  | 303 => some "See Other"
  | 304 => some "Not Modified"
  | 305 => some "Use Proxy"
  | 307 => some "Temporary Redirect"
  | 308 => some "Permanent Redirect"
  | 400 => some "Bad Request"
  | 401 => some "Unauthorized"
  | 402 => some "Payment Required"
  | 403 => some "Forbidden"
  | 404 => some "Not Found"
  | 405 => some "Method Not Allowed"
  | 406 => some "Not Acceptable"
  | 407 => some "Proxy Authentication Required"
  | 408 => some "Request Timeout"
  | 409 => some "Conflict"
  | 410 => some "Gone"
  | 411 => some "Length Required"
  | 412 => some "Precondition Failed"
  | 413 => some "Payload Too Large"
  | 414 => some "URI Too Long"
  | 415 => some "Unsupported Media Type"
  | 416 => some "Range Not Satisfiable"
  | 417 => some "Expectation Failed"
  | 418 => some "I\x27m a teapot"
  | 421 => some "Misdirected Request"
  | 422 => some "Unprocessable Entity"
  | 423 => some "Locked"
  | 424 => some "Failed Dependency"
  | 426 => some "Upgrade Required"
  | 428 => some "Precondition Required"
  | 429 => some "Too Many Requests"
  | 431 => some "Request Header Fields Too Large"
  | 451 => some "Unavailable For Legal Reasons"
  | 500 => some "Internal Server Error"
  | 501 => some "Not Implemented"
  | 502 => some "Bad Gateway"
  | 503 => some "Service Unavailable"
  | 504 => some "Gateway Timeout"
  | 505 => some "HTTP Version Not Supported"
  | 506 => some "Variant Also Negotiates"
  | 507 => some "Insufficient Storage"
  | 508 => some "Loop Detected"
  | 510 => some "Not Extended"
  | 511 => some "Network Authentication Required"
  | _ => none

/-- `write_body_to` (handler.rs:152-171): the writes it performs on the
sink.  `Full` writes the whole buffer then flushes; `Chunked` writes each
chunk in production order then flushes; `Empty` returns before the
flush. -/
def write_body_to : BodyType → List WEvent
  | .full data => [.write data, .flush]
  | .chunked chunks => (chunks.map fun c => .write c) ++ [.flush]
  | .empty => []

/-- The bytes a sequence of writer events puts on the wire. -/
def wbytes : List WEvent → List Nat
  | [] => []
  | .write b :: t => b ++ wbytes t
  | .flush :: t => wbytes t

/-- The number of `flush` calls in a sequence of writer events. -/
def flushes : List WEvent → Nat
  | [] => 0
  | .write _ :: t => flushes t
  | .flush :: t => flushes t + 1

/-- The status line as the specification describes it: `"HTTP/"`, the
dotted version literal, a space, the numeric status, a space and the
canonical reason phrase when one exists, then CRLF. -/
def statusLineBytes (r : Response) : List Nat :=
  strBytes "HTTP/" ++ strBytes (versionStr r.version) ++ [32] ++
  strBytes (toString r.status) ++
  (match canonicalReason r.status with
    | some reason => [32] ++ strBytes reason
    | none => []) ++
  strBytes "\r\n"

/-- One header line as the specification describes it:
name, `": "`, value, CRLF. -/
def headerLineBytes (kv : String × String) : List Nat :=
  strBytes kv.1 ++ strBytes ": " ++ strBytes kv.2 ++ strBytes "\r\n"

/-- The body bytes for each variant: nothing for `Empty`, the buffer for
`Full`, the chunks in production order for `Chunked`. -/
def bodyBytes : BodyType → List Nat
  | .full data => data
  | .chunked chunks => chunks.flatten
  | .empty => []

/-- `send_response` (handler.rs:115-150): the ordered sequence of writes
and flushes it performs on the sink.  The final `_ => unimplemented!()`
version arm is unreachable: `versionStr` covers every `http::Version`
variant the crate defines. -/
def send_response (r : Response) : List WEvent :=
  [.write (strBytes "HTTP/"), .write (strBytes (versionStr r.version)),
    .write [32], .write (strBytes (toString r.status))] ++
  (match canonicalReason r.status with
    | some reason => [.write [32], .write (strBytes reason)]
    | none => []) ++
  [.write (strBytes "\r\n")] ++
  (r.headers.flatMap fun kv =>
    [.write (strBytes kv.1), .write (strBytes ": "),
      .write (strBytes kv.2), .write (strBytes "\r\n")]) ++
  [.write (strBytes "\r\n")] ++
  write_body_to r.body ++
  [.flush]

lemma wbytes_append (a b : List WEvent) :
    wbytes (a ++ b) = wbytes a ++ wbytes b := by
  induction a with
  | nil => rfl
  | cons e t ih => cases e <;> simp [wbytes, ih]

lemma flushes_append (a b : List WEvent) :
    flushes (a ++ b) = flushes a + flushes b := by
  induction a with
  | nil => simp [flushes]
  | cons e t ih =>
    cases e with
    | write b' => simp [flushes, ih]
    | flush => simp [flushes, ih]; omega

/-- The events emitted for the header block are exactly one rendered line
per map entry. -/
lemma wbytes_header_events (hs : List (String × String)) :
    wbytes (hs.flatMap fun kv =>
        [.write (strBytes kv.1), .write (strBytes ": "),
          .write (strBytes kv.2), .write (strBytes "\r\n")]) =
      hs.flatMap headerLineBytes := by
  induction hs with
  | nil => rfl
  | cons kv t ih =>
    rw [List.flatMap_cons, List.flatMap_cons, wbytes_append, ih]
    simp [wbytes, headerLineBytes, List.append_assoc]

lemma flushes_header_events (hs : List (String × String)) :
    flushes (hs.flatMap fun kv =>
        [.write (strBytes kv.1), .write (strBytes ": "),
          .write (strBytes kv.2), .write (strBytes "\r\n")]) = 0 := by
  induction hs with
  | nil => rfl
  | cons kv t ih =>
    rw [List.flatMap_cons, flushes_append, ih]
    simp [flushes]

lemma wbytes_chunk_events (cs : List (List Nat)) :
    wbytes (cs.map fun c => WEvent.write c) = cs.flatten := by
  induction cs with
  | nil => rfl
  | cons c t ih => simp [wbytes, ih]

lemma flushes_chunk_events (cs : List (List Nat)) :
    flushes (cs.map fun c => WEvent.write c) = 0 := by
  induction cs with
  | nil => rfl
  | cons c t ih => simp [flushes, ih]

/-- Byte-level decomposition of `send_response`: status line, header
block rendered entry by entry, blank line, body bytes. -/
lemma send_response_bytes (r : Response) :
    wbytes (send_response r) =
      statusLineBytes r ++ r.headers.flatMap headerLineBytes ++
        strBytes "\r\n" ++ bodyBytes r.body := by
  unfold send_response statusLineBytes
  rcases hr : canonicalReason r.status with _ | reason <;>
    rcases hb : r.body with data | chunks | _ <;>
      simp [wbytes_append, wbytes, write_body_to, bodyBytes,
        wbytes_header_events, wbytes_chunk_events, List.append_assoc]

/-- Flush structure of `send_response`: all flushes are trailing, and there
is one for an `Empty` body (from `send_response` alone) and two otherwise
(`write_body_to` flushes once more). -/
lemma send_response_flushes (r : Response) :
    ∃ ws, send_response r =
        ws ++ List.replicate (if r.body = .empty then 1 else 2) .flush ∧
      flushes ws = 0 := by
  unfold send_response
  rcases hb : r.body with data | chunks | _
  all_goals rcases hr : canonicalReason r.status with _ | reason
  all_goals simp only [write_body_to, if_true, if_false, reduceIte]
  case full.none =>
    refine ⟨[.write (strBytes "HTTP/"), .write (strBytes (versionStr r.version)),
      .write [32], .write (strBytes (toString r.status)), .write (strBytes "\r\n")] ++
      (r.headers.flatMap fun kv =>
        [.write (strBytes kv.1), .write (strBytes ": "),
          .write (strBytes kv.2), .write (strBytes "\r\n")]) ++
      [.write (strBytes "\r\n"), .write data], ?_, ?_⟩
    · simp [List.append_assoc, List.replicate]
    · simp [flushes_append, flushes, flushes_header_events]
  case full.some =>
    refine ⟨[.write (strBytes "HTTP/"), .write (strBytes (versionStr r.version)),
      .write [32], .write (strBytes (toString r.status)), .write [32],
      .write (strBytes reason), .write (strBytes "\r\n")] ++
      (r.headers.flatMap fun kv =>
        [.write (strBytes kv.1), .write (strBytes ": "),
          .write (strBytes kv.2), .write (strBytes "\r\n")]) ++
      [.write (strBytes "\r\n"), .write data], ?_, ?_⟩
    · simp [List.append_assoc, List.replicate]
    · simp [flushes_append, flushes, flushes_header_events]
  case chunked.none =>
    refine ⟨[.write (strBytes "HTTP/"), .write (strBytes (versionStr r.version)),
      .write [32], .write (strBytes (toString r.status)), .write (strBytes "\r\n")] ++
      (r.headers.flatMap fun kv =>
        [.write (strBytes kv.1), .write (strBytes ": "),
          .write (strBytes kv.2), .write (strBytes "\r\n")]) ++
      [.write (strBytes "\r\n")] ++ (chunks.map fun c => WEvent.write c), ?_, ?_⟩
    · simp [List.append_assoc, List.replicate]
    · simp [flushes_append, flushes, flushes_header_events, flushes_chunk_events]
  case chunked.some =>
    refine ⟨[.write (strBytes "HTTP/"), .write (strBytes (versionStr r.version)),
      .write [32], .write (strBytes (toString r.status)), .write [32],
      .write (strBytes reason), .write (strBytes "\r\n")] ++
      (r.headers.flatMap fun kv =>
        [.write (strBytes kv.1), .write (strBytes ": "),
          .write (strBytes kv.2), .write (strBytes "\r\n")]) ++
      [.write (strBytes "\r\n")] ++ (chunks.map fun c => WEvent.write c), ?_, ?_⟩
    · simp [List.append_assoc, List.replicate]
    · simp [flushes_append, flushes, flushes_header_events, flushes_chunk_events]
  case empty.none =>
    refine ⟨[.write (strBytes "HTTP/"), .write (strBytes (versionStr r.version)),
      .write [32], .write (strBytes (toString r.status)), .write (strBytes "\r\n")] ++
      (r.headers.flatMap fun kv =>
        [.write (strBytes kv.1), .write (strBytes ": "),
          .write (strBytes kv.2), .write (strBytes "\r\n")]) ++
      [.write (strBytes "\r\n")], ?_, ?_⟩
    · simp [List.append_assoc, List.replicate]
    · simp [flushes_append, flushes, flushes_header_events]
  case empty.some =>
    refine ⟨[.write (strBytes "HTTP/"), .write (strBytes (versionStr r.version)),
      .write [32], .write (strBytes (toString r.status)), .write [32],
      .write (strBytes reason), .write (strBytes "\r\n")] ++
      (r.headers.flatMap fun kv =>
        [.write (strBytes kv.1), .write (strBytes ": "),
          .write (strBytes kv.2), .write (strBytes "\r\n")]) ++
      [.write (strBytes "\r\n")], ?_, ?_⟩
    · simp [List.append_assoc, List.replicate]
    · simp [flushes_append, flushes, flushes_header_events]

end Handler

/-! ## Claim theorems -/

/-- C3 (counterexample): a response with a `Full` body is flushed twice by
`send_response` — once by `write_body_to` and once by `send_response`
itself — refuting "the sink is flushed exactly once". -/
theorem c3_counterexample :
    Handler.flushes
        (Handler.send_response ⟨200, .http11,
          [("content-type", "text/plain"), ("content-length", "1")],
          .full [120]⟩) = 2 ∧ (2 : Nat) ≠ 1 := by
  constructor
  · decide
  · decide

/-- C3 (amended): `send_response` writes, in order, `"HTTP/"`, the dotted
version literal, a space, the numeric status, a space and the canonical
reason phrase when one exists, CRLF, each header as name `": "` value CRLF,
a blank CRLF line, and the body bytes (nothing for `Empty`, the buffer for
`Full`, the chunks in production order for `Chunked`); every flush happens
after all bytes are written, but the sink is flushed once for an `Empty`
body and twice for `Full` and `Chunked` bodies. -/
theorem c3_serialization_order (r : Handler.Response) :
    Handler.wbytes (Handler.send_response r) =
      Handler.statusLineBytes r ++
        r.headers.flatMap Handler.headerLineBytes ++
        strBytes "\r\n" ++ Handler.bodyBytes r.body ∧
    ∃ ws, Handler.send_response r =
        ws ++ List.replicate (if r.body = .empty then 1 else 2) .flush ∧
      Handler.flushes ws = 0 :=
  ⟨Handler.send_response_bytes r, Handler.send_response_flushes r⟩

/-- C9: the serializer emits exactly the headers present in the response's
header map — each as its name, `": "`, its unaltered value and CRLF, and
nothing else between the status line and the blank line — for every body
variant; in particular it never synthesizes a `Content-Length`. -/
theorem c9_serializer_emits_headers_exactly (r : Handler.Response) :
    Handler.wbytes (Handler.send_response r) =
      Handler.statusLineBytes r ++
        r.headers.flatMap Handler.headerLineBytes ++
        strBytes "\r\n" ++ Handler.bodyBytes r.body ∧
    Handler.bodyBytes .empty = [] :=
  ⟨Handler.send_response_bytes r, rfl⟩

/-- C1: on the `echo` route with a second segment `arg`, the dispatcher
responds 200 with `Content-Type: text/plain` and: when some
`Accept-Encoding` value lists the token `gzip` (case-insensitively, in the
`", "`-separated list, exact token match), `Content-Encoding: gzip`, a
`Full` body equal to the gzip compression of `arg` and `Content-Length`
equal to the compressed length; otherwise a `Full` body of the raw bytes
of `arg` and `Content-Length` equal to their count. -/
theorem c1_echo_gzip_negotiation (gz : List Nat → List Nat)
    (dirCfg : Option String) (fs : Handler.FS) (req : Handler.Request)
    (arg : String) (rest : List String)
    (hpath : Handler.pathParts req.path = "echo" :: arg :: rest) :
    Handler.handle_request gz dirCfg fs req =
      if Handler.acceptsGzip req.headers then
        .ok fs ⟨200, .http11,
          [("content-type", "text/plain"), ("content-encoding", "gzip"),
            ("content-length", toString (gz (strBytes arg)).length)],
          .full (gz (strBytes arg))⟩
      else
        .ok fs ⟨200, .http11,
          [("content-type", "text/plain"),
            ("content-length", toString (strBytes arg).length)],
          .full (strBytes arg)⟩ := by
  unfold Handler.handle_request
  rw [hpath]
  by_cases hg : Handler.acceptsGzip req.headers <;> simp [hg]

/-- C1 (witness): `GET /echo/abc` without `Accept-Encoding: gzip` yields
status 200, `Content-Length: 3`, body `abc`. -/
theorem c1_echo_witness :
    Handler.handle_request (fun b => b) none ⟨[], []⟩
        ⟨"GET", "/echo/abc", [], none⟩ =
      .ok ⟨[], []⟩ ⟨200, .http11,
        [("content-type", "text/plain"), ("content-length", "3")],
        .full (strBytes "abc")⟩ := by
  rw [c1_echo_gzip_negotiation (fun b => b) none ⟨[], []⟩
    ⟨"GET", "/echo/abc", [], none⟩ "abc" [] (by decide)]
  decide

/-- The chunking used for streamed file bodies reassembles to the original
contents. -/
lemma chunksOfAux_flatten (fuel : Nat) :
    ∀ l : List Nat, l.length ≤ fuel → (Handler.chunksOfAux fuel l).flatten = l := by
  induction fuel with
  | zero =>
    intro l h
    have : l = [] := List.eq_nil_of_length_eq_zero (Nat.le_zero.mp h)
    subst this
    rfl
  | succ n ih =>
    intro l h
    cases l with
    | nil => rfl
    | cons a t =>
      show ((a :: t).take 4096 :: Handler.chunksOfAux n ((a :: t).drop 4096)).flatten = a :: t
      rw [List.flatten_cons, ih ((a :: t).drop 4096) ?_, List.take_append_drop]
      have hl : (a :: t).length ≤ n + 1 := h
      simp only [List.length_drop]
      omega

lemma chunksOf_flatten (l : List Nat) : (Handler.chunksOf l).flatten = l :=
  chunksOfAux_flatten l.length l (Nat.le_refl _)

/-- C4: a `GET` on the `files` route with a configured base directory
responds 404 Not Found with the fixed `"Not Found"` body when the file
cannot be opened, and otherwise 200 with
`Content-Type: application/octet-stream`, `Content-Length` equal to the
file's byte size, and a `Chunked` (streamed) body whose chunks reassemble
to the file's contents. -/
theorem c4_files_get (gz : List Nat → List Nat) (fs : Handler.FS)
    (req : Handler.Request) (dir fileName : String) (rest : List String)
    (hpath : Handler.pathParts req.path = "files" :: fileName :: rest)
    (hm : req.method = "GET") :
    (Handler.fsRead fs (Handler.pathJoin dir fileName) = none →
      Handler.handle_request gz (some dir) fs req = .ok fs Handler.not_found) ∧
    (∀ contents,
      Handler.fsRead fs (Handler.pathJoin dir fileName) = some contents →
      Handler.handle_request gz (some dir) fs req =
        .ok fs ⟨200, .http11,
          [("content-type", "application/octet-stream"),
            ("content-length", toString contents.length)],
          .chunked (Handler.chunksOf contents)⟩ ∧
      (Handler.chunksOf contents).flatten = contents) := by
  constructor
  · intro hnone
    unfold Handler.handle_request
    rw [hpath]
    simp [hm, hnone]
  · intro contents hsome
    refine ⟨?_, chunksOf_flatten contents⟩
    unfold Handler.handle_request
    rw [hpath]
    simp [hm, hsome]

/-- C4 (witness): `GET /files/missing.txt` against an empty filesystem is
404 with body `Not Found`; `GET /files/hello.txt` against a filesystem
holding that file streams its two bytes. -/
theorem c4_files_get_witness :
    Handler.handle_request (fun b => b) (some "/tmp/dir") ⟨[], []⟩
        ⟨"GET", "/files/missing.txt", [], none⟩ =
      .ok ⟨[], []⟩ Handler.not_found ∧
    Handler.handle_request (fun b => b) (some "/tmp/dir")
        ⟨[], [("/tmp/dir/hello.txt", [104, 105])]⟩
        ⟨"GET", "/files/hello.txt", [], none⟩ =
      .ok ⟨[], [("/tmp/dir/hello.txt", [104, 105])]⟩
        ⟨200, .http11,
          [("content-type", "application/octet-stream"),
            ("content-length", "2")],
          .chunked [[104, 105]]⟩ := by
  constructor
  · exact (c4_files_get (fun b => b) ⟨[], []⟩
      ⟨"GET", "/files/missing.txt", [], none⟩ "/tmp/dir" "missing.txt" []
      (by decide) rfl).1 (by decide)
  · have h := (c4_files_get (fun b => b)
      ⟨[], [("/tmp/dir/hello.txt", [104, 105])]⟩
      ⟨"GET", "/files/hello.txt", [], none⟩ "/tmp/dir" "hello.txt" []
      (by decide) rfl).2 [104, 105] (by decide)
    rw [h.1]
    decide

/-- C5: a `POST` on the `files` route with a configured base directory
fails with the missing-body dispatch error (`bail!("No body")`) when the
request carries no body; otherwise it creates the base directory, writes
the whole bounded body to the target file (created or truncated), and
responds 201 Created with an `Empty` body. -/
theorem c5_files_post (gz : List Nat → List Nat) (fs : Handler.FS)
    (req : Handler.Request) (dir fileName : String) (rest : List String)
    (hpath : Handler.pathParts req.path = "files" :: fileName :: rest)
    (hm : req.method = "POST") :
    (req.body = none →
      Handler.handle_request gz (some dir) fs req = .err "No body") ∧
    (∀ chunks, req.body = some chunks →
      Handler.handle_request gz (some dir) fs req =
        .ok (Handler.writeFile (Handler.pathJoin dir fileName)
              chunks.flatten (Handler.createDirAll dir fs))
          ⟨201, .http11, [], .empty⟩ ∧
      Handler.fsRead
          (Handler.writeFile (Handler.pathJoin dir fileName)
            chunks.flatten (Handler.createDirAll dir fs))
          (Handler.pathJoin dir fileName) = some chunks.flatten ∧
      dir ∈ (Handler.createDirAll dir fs).dirs) := by
  constructor
  · intro hnone
    unfold Handler.handle_request
    rw [hpath]
    simp [hm, hnone]
  · intro chunks hsome
    refine ⟨?_, ?_, ?_⟩
    · unfold Handler.handle_request
      rw [hpath]
      simp [hm, hsome]
    · simp [Handler.fsRead, Handler.writeFile, List.lookup]
    · simp [Handler.createDirAll]

/-- C5 (witness): a bodyless `POST /files/foo.txt` errors with `No body`;
with a two-chunk body the file is written with the concatenated bytes and
the response is 201 with an `Empty` body. -/
theorem c5_files_post_witness :
    Handler.handle_request (fun b => b) (some "/tmp/dir") ⟨[], []⟩
        ⟨"POST", "/files/foo.txt", [], none⟩ = .err "No body" ∧
    Handler.handle_request (fun b => b) (some "/tmp/dir") ⟨[], []⟩
        ⟨"POST", "/files/foo.txt", [], some [[97], [98, 99]]⟩ =
      .ok ⟨["/tmp/dir"], [("/tmp/dir/foo.txt", [97, 98, 99])]⟩
        ⟨201, .http11, [], .empty⟩ := by
  constructor
  · exact (c5_files_post (fun b => b) ⟨[], []⟩
      ⟨"POST", "/files/foo.txt", [], none⟩ "/tmp/dir" "foo.txt" []
      (by decide) rfl).1 rfl
  · have h := (c5_files_post (fun b => b) ⟨[], []⟩
      ⟨"POST", "/files/foo.txt", [], some [[97], [98, 99]]⟩
      "/tmp/dir" "foo.txt" [] (by decide) rfl).2 [[97], [98, 99]] rfl
    rw [h.1]
    decide

/-- C10: on the `files` route with a configured base directory and a file
name, a method other than `GET` and `POST` makes the dispatcher reach
`unimplemented!()` — a panic, not a response and not a typed dispatch
failure. -/
theorem c10_files_other_method_panics (gz : List Nat → List Nat)
    (fs : Handler.FS) (req : Handler.Request) (dir fileName : String)
    (rest : List String)
    (hpath : Handler.pathParts req.path = "files" :: fileName :: rest)
    (hg : req.method ≠ "GET") (hp : req.method ≠ "POST") :
    Handler.handle_request gz (some dir) fs req = .panics := by
  unfold Handler.handle_request
  rw [hpath]
  simp [hg, hp]

/-- C2: for every successfully parsed request, an absent, unparseable or
zero `Content-Length` leaves the body `None`, and a parsed value `L > 0`
bounds the body to exactly the first `L` bytes of the stream remainder
after the header terminator — never more than `L` bytes. -/
theorem c2_body_bounded_by_content_length
    (uriF : List Nat → Option (List Nat)) (stream buf rest : List Nat)
    (req : Parsing.Request)
    (hs : Parsing.findSplit stream = some (buf, rest))
    (h : Parsing.RequestParser.parse uriF stream = .ok req) :
    ((req.parts.headers.lookup Parsing.clName).bind Parsing.headerValueToU64 =
        none → req.body = none) ∧
    (∀ L,
      (req.parts.headers.lookup Parsing.clName).bind Parsing.headerValueToU64 =
        some L →
      (L = 0 → req.body = none) ∧
      (0 < L → req.body = some (rest.take L) ∧ (rest.take L).length ≤ L)) := by
  unfold Parsing.RequestParser.parse at h
  rw [hs] at h
  dsimp only at h
  cases hp : Parsing.Parts.parse uriF buf with
  | err e => rw [hp] at h; cases h
  | panics => rw [hp] at h; cases h
  | ok parts =>
    rw [hp] at h
    cases h
    refine ⟨?_, ?_⟩
    · intro hnone
      simp only at hnone ⊢
      rw [hnone]
      rfl
    · intro L hsome
      simp only at hsome ⊢
      rw [hsome]
      refine ⟨?_, ?_⟩
      · intro h0
        subst h0
        rfl
      · intro hpos
        have hne : L ≠ 0 := Nat.pos_iff_ne_zero.mp hpos
        refine ⟨?_, ?_⟩
        · simp [Option.filter, hne]
        · rw [List.length_take]
          exact Nat.min_le_left _ _

/-- C2 (witness): parsing `POST /files/f HTTP/1.1` with `Content-Length: 3`
over a remainder of six bytes bounds the body to the first three. -/
theorem c2_body_bounded_witness :
    ((Parsing.Request.mk
        ⟨strBytes "POST", strBytes "/files/f", .http11,
          [(Parsing.clName, [51])]⟩
        (some (strBytes "abc"))).parts.headers.lookup Parsing.clName).bind
          Parsing.headerValueToU64 = some 3 ∧
    (Parsing.Request.mk
        ⟨strBytes "POST", strBytes "/files/f", .http11,
          [(Parsing.clName, [51])]⟩
        (some (strBytes "abc"))).body =
      some ((strBytes "abcdef").take 3) := by
  refine ⟨by decide, ?_⟩
  exact ((c2_body_bounded_by_content_length Parsing.uriModel
    (strBytes "POST /files/f HTTP/1.1\r\nContent-Length: 3\r\n\r\nabcdef")
    (strBytes "POST /files/f HTTP/1.1\r\nContent-Length: 3\r\n\r\n")
    (strBytes "abcdef") _ (by decide) (by decide)).2 3 (by decide)).2
    (by decide) |>.1

lemma takeWhile_all_append_cons {α} (p : α → Bool) (l₁ : List α) (c : α)
    (l₂ : List α) (h1 : l₁.all p = true) (h2 : p c = false) :
    (l₁ ++ c :: l₂).takeWhile p = l₁ := by
  induction l₁ with
  | nil => simp [List.takeWhile_cons, h2]
  | cons a t ih =>
    simp only [List.all_cons, Bool.and_eq_true] at h1
    simp [List.takeWhile_cons, h1.1, ih h1.2]

lemma dropWhile_all_append_cons {α} (p : α → Bool) (l₁ : List α) (c : α)
    (l₂ : List α) (h1 : l₁.all p = true) (h2 : p c = false) :
    (l₁ ++ c :: l₂).dropWhile p = c :: l₂ := by
  induction l₁ with
  | nil => simp [List.dropWhile_cons, h2]
  | cons a t ih =>
    simp only [List.all_cons, Bool.and_eq_true] at h1
    simp [List.dropWhile_cons, h1.1, ih h1.2]

lemma all_takeWhile_self {α} (p : α → Bool) (l : List α) :
    (l.takeWhile p).all p = true :=
  List.all_eq_true.mpr fun _ hx => List.mem_takeWhile_imp hx

lemma all_of_all_imp {α} {l : List α} {p q : α → Bool} (h : l.all p = true)
    (himp : ∀ b, p b = true → q b = true) : l.all q = true := by
  rw [List.all_eq_true] at h ⊢
  exact fun x hx => himp x (h x hx)

lemma methodFromBytes_some {b m : List Nat}
    (h : Parsing.methodFromBytes b = some m) : m = b ∧ b ≠ [] := by
  unfold Parsing.methodFromBytes at h
  split at h
  next hcond =>
    cases h
    exact ⟨rfl, hcond.1⟩
  next => cases h

/-- C7 (counterexample): the start line `FOO / HTTP/1.1` — alphabetic but
unrecognized method — parses successfully (`http::Method::from_bytes`
accepts any token as an extension method); there is no `UnsupportedMethod`
failure. -/
theorem c7_counterexample :
    Parsing.parse_start_line Parsing.uriModel (strBytes "FOO / HTTP/1.1\r\n") =
      .ok [] (strBytes "FOO") [47] .http11 := by
  decide

/-- C7 (amended): any successfully parsed start line carries a non-empty,
fully alphabetic method token taken verbatim (unrecognized methods become
extension methods rather than failures), and a method token containing a
non-alphabetic ASCII byte before the first space or tab is a parse
failure. -/
theorem c7_method_token_alphabetic :
    (∀ (uriF : List Nat → Option (List Nat)) (input rest m u : List Nat)
        (v : HttpVersion),
      Parsing.parse_start_line uriF input = .ok rest m u v →
        m ≠ [] ∧ m.all isAlphaN = true) ∧
    (∀ (uriF : List Nat → Option (List Nat)) (pre : List Nat) (c : Nat)
        (suf : List Nat), pre.all isAlphaN = true → isAlphaN c = false →
        c ≠ 32 → c ≠ 9 →
      Parsing.parse_start_line uriF (pre ++ c :: suf) = .fail) := by
  constructor
  · intro uriF input rest m u v h
    unfold Parsing.parse_start_line at h
    dsimp only at h
    repeat' split at h
    all_goals cases h
    have hmeth : Parsing.methodFromBytes (input.takeWhile isAlphaN) = some m :=
      by assumption
    obtain ⟨rfl, hne⟩ := methodFromBytes_some hmeth
    exact ⟨hne, all_takeWhile_self isAlphaN input⟩
  · intro uriF pre c suf hall hc h32 h9
    have hsp : isSpaceTabN c = false := by
      simp [isSpaceTabN, h32, h9]
    cases pre with
    | nil =>
      unfold Parsing.parse_start_line
      simp [List.takeWhile_cons, hc]
    | cons a t =>
      unfold Parsing.parse_start_line
      dsimp only
      rw [takeWhile_all_append_cons isAlphaN (a :: t) c suf hall hc,
        dropWhile_all_append_cons isAlphaN (a :: t) c suf hall hc]
      rw [if_neg (by simp)]
      simp [List.takeWhile_cons, hsp]

/-- C7 (witness): applying the amended theorem — `FOO` parses to a
non-empty alphabetic method, and `G3T` (non-alphabetic byte `3` inside the
method token) is a parse failure. -/
theorem c7_method_token_witness :
    (strBytes "FOO" ≠ [] ∧ (strBytes "FOO").all isAlphaN = true) ∧
    Parsing.parse_start_line Parsing.uriModel (strBytes "G3T / HTTP/1.1\r\n") =
      .fail := by
  constructor
  · exact c7_method_token_alphabetic.1 Parsing.uriModel
      (strBytes "FOO / HTTP/1.1\r\n") [] (strBytes "FOO") [47] .http11
      (by decide)
  · rw [show strBytes "G3T / HTTP/1.1\r\n" =
      [71] ++ 51 :: strBytes "T / HTTP/1.1\r\n" from by decide]
    exact c7_method_token_alphabetic.2 Parsing.uriModel [71] 51
      (strBytes "T / HTTP/1.1\r\n") (by decide) (by decide) (by decide)
      (by decide)

lemma alpha_isMethodToken (b : Nat) (h : isAlphaN b = true) :
    isMethodTokenN b = true := by
  simp [isMethodTokenN, h]

lemma takeWhile_spacetab_head32 (a : Nat) (t X : List Nat) (h32 : a ≠ 32)
    (h9 : a ≠ 9) :
    (32 :: ((a :: t) ++ X)).takeWhile isSpaceTabN = [32] := by
  simp [List.takeWhile_cons, isSpaceTabN, h32, h9]

lemma dropWhile_spacetab_head32 (a : Nat) (t X : List Nat) (h32 : a ≠ 32)
    (h9 : a ≠ 9) :
    (32 :: ((a :: t) ++ X)).dropWhile isSpaceTabN = (a :: t) ++ X := by
  simp [List.dropWhile_cons, isSpaceTabN, h32, h9]

/-- C8 (counterexample): the start line `GET / HTTP/2.0` — a well-formed
digits-and-dots version other than `1.1` — makes `parse_start_line` reach
`unimplemented!()` (a panic), which is not a parse-failure value. -/
theorem c8_counterexample :
    Parsing.parse_start_line Parsing.uriModel (strBytes "GET / HTTP/2.0\r\n") =
      .panics ∧
    Parsing.StartLineResult.panics ≠ Parsing.StartLineResult.fail := by
  decide

/-- C8 (amended): for every start line whose version token is a
well-formed digits-and-dots token other than `1.1` (and whose method, URI
and framing are otherwise well-formed), `parse_start_line` panics at the
`unimplemented!()` arm of the version match instead of returning a typed
failure. -/
theorem c8_unsupported_version_panics
    (uriF : List Nat → Option (List Nat)) (m u v suf : List Nat)
    (hm : m ≠ []) (hma : m.all isAlphaN = true) (hu : u ≠ [])
    (hua : u.all (fun b => decide (b ≠ 32) && decide (b ≠ 9)) = true)
    (huri : (uriF u).isSome = true) (hv : v ≠ [])
    (hva : v.all isDigitDotN = true) (hne : v ≠ strBytes "1.1") :
    Parsing.parse_start_line uriF
        (m ++ 32 :: (u ++ 32 :: (strBytes "HTTP/" ++ (v ++ 13 :: 10 :: suf)))) =
      .panics := by
  obtain ⟨a, t, rfl⟩ := List.exists_cons_of_ne_nil hu
  simp only [List.all_cons, Bool.and_eq_true, decide_eq_true_eq] at hua
  have hne32 : (a :: t).all (fun b => decide (b ≠ 32)) = true := by
    rw [List.all_eq_true]
    intro x hx
    rcases List.mem_cons.mp hx with rfl | hx
    · exact decide_eq_true hua.1.1
    · have hbx := List.all_eq_true.mp hua.2 x hx
      simp only [Bool.and_eq_true] at hbx
      exact hbx.1
  rw [show strBytes "HTTP/" = [72, 84, 84, 80, 47] from by decide]
  unfold Parsing.parse_start_line
  dsimp only
  rw [takeWhile_all_append_cons isAlphaN m 32 _ hma (by decide),
    dropWhile_all_append_cons isAlphaN m 32 _ hma (by decide),
    if_neg hm,
    takeWhile_spacetab_head32 a t _ hua.1.1 hua.1.2,
    if_neg (by simp : ¬([32] : List Nat) = []),
    dropWhile_spacetab_head32 a t _ hua.1.1 hua.1.2,
    takeWhile_all_append_cons (fun b => decide (b ≠ 32)) (a :: t) 32 _ hne32
      (by decide),
    if_neg (by simp : ¬(a :: t) = []),
    dropWhile_all_append_cons (fun b => decide (b ≠ 32)) (a :: t) 32 _ hne32
      (by decide),
    takeWhile_spacetab_head32 72 [84, 84, 80, 47] _ (by decide) (by decide),
    if_neg (by simp : ¬([32] : List Nat) = []),
    dropWhile_spacetab_head32 72 [84, 84, 80, 47] _ (by decide) (by decide)]
  dsimp only [List.cons_append, List.nil_append]
  rw [takeWhile_all_append_cons isDigitDotN v 13 _ hva (by decide),
    if_neg hv,
    dropWhile_all_append_cons isDigitDotN v 13 _ hva (by decide)]
  dsimp only
  rw [show Parsing.methodFromBytes m = some m from by
    unfold Parsing.methodFromBytes
    rw [if_pos ⟨hm, all_of_all_imp hma alpha_isMethodToken⟩]]
  dsimp only
  obtain ⟨uriV, huriV⟩ := Option.isSome_iff_exists.mp huri
  rw [huriV]
  dsimp only
  rw [if_neg hne]

/-- C8 (witness): applying the amended theorem to `GET / HTTP/3.0`. -/
theorem c8_unsupported_version_witness :
    Parsing.parse_start_line Parsing.uriModel
        (strBytes "GET" ++ 32 :: ([47] ++ 32 ::
          (strBytes "HTTP/" ++ (strBytes "3.0" ++ 13 :: 10 :: [])))) =
      .panics :=
  c8_unsupported_version_panics Parsing.uriModel (strBytes "GET") [47]
    (strBytes "3.0") [] (by decide) (by decide) (by decide) (by decide)
    (by decide) (by decide) (by decide) (by decide)

/-- C6 (counterexample): a request whose `Content-Length` value `abc` is
not parseable as an integer still parses successfully — with no body — so
no `MalformedContentLength` failure occurs. -/
theorem c6_counterexample :
    Parsing.RequestParser.parse Parsing.uriModel
        (strBytes "GET / HTTP/1.1\r\nContent-Length: abc\r\n\r\nrest") =
      .ok ⟨⟨strBytes "GET", [47], .http11,
        [(Parsing.clName, strBytes "abc")]⟩, none⟩ := by
  decide

/-- C6 (amended): when the header block parses successfully but the
`Content-Length` value does not parse as a `u64`, the value is treated as
absent — `RequestParser::parse` succeeds and the body is `None`. -/
theorem c6_unparseable_content_length_ignored
    (uriF : List Nat → Option (List Nat)) (stream buf rest : List Nat)
    (parts : Parsing.Parts)
    (hs : Parsing.findSplit stream = some (buf, rest))
    (hp : Parsing.Parts.parse uriF buf = .ok parts)
    (hcl : (parts.headers.lookup Parsing.clName).bind Parsing.headerValueToU64 =
      none) :
    Parsing.RequestParser.parse uriF stream = .ok ⟨parts, none⟩ := by
  unfold Parsing.RequestParser.parse
  rw [hs]
  dsimp only
  rw [hp]
  simp only [hcl]
  rfl

/-- C6 (witness): a `Content-Length` of twenty nines overflows `u64`
parsing, and the request still parses with no body. -/
theorem c6_unparseable_witness :
    Parsing.RequestParser.parse Parsing.uriModel
        (strBytes
          "GET / HTTP/1.1\r\nContent-Length: 99999999999999999999\r\n\r\nxyz") =
      .ok ⟨⟨strBytes "GET", [47], .http11,
        [(Parsing.clName, strBytes "99999999999999999999")]⟩, none⟩ :=
  c6_unparseable_content_length_ignored Parsing.uriModel
    (strBytes
      "GET / HTTP/1.1\r\nContent-Length: 99999999999999999999\r\n\r\nxyz")
    (strBytes "GET / HTTP/1.1\r\nContent-Length: 99999999999999999999\r\n\r\n")
    (strBytes "xyz")
    ⟨strBytes "GET", [47], .http11,
      [(Parsing.clName, strBytes "99999999999999999999")]⟩
    (by decide) (by decide) (by decide)

/-- C10 (witness): `DELETE /files/foo.txt` with a configured directory
panics. -/
theorem c10_files_other_method_witness :
    Handler.handle_request (fun b => b) (some "/tmp/dir") ⟨[], []⟩
        ⟨"DELETE", "/files/foo.txt", [], none⟩ = .panics :=
  c10_files_other_method_panics (fun b => b) ⟨[], []⟩
    ⟨"DELETE", "/files/foo.txt", [], none⟩ "/tmp/dir" "foo.txt" []
    (by decide) (by decide) (by decide)
